import Mathlib

/-!
Verification development for the pennylane transform/equality core.

The definitions below are a shallow embedding of three modules of the
repository:

* `pennylane/ops/functions/equal.py`          (operator/measurement equality)
* `pennylane/transforms/batch_params.py`      (batch-dimension transform)
* `pennylane/transforms/convert_to_numpy_parameters.py`
                                              (interface normalization)

Machine reals are modelled as exact rationals; Python object identity is
modelled with explicit instance tags (for tape operations) and with an
explicit object heap (for the interface-normalization transform, whose
frame behaviour is about which objects get written).  Fallible Python code
is modelled with `Except String`.
-/

namespace Pennylane

/-- Exact rational scalar, kept as an unnormalized numerator/denominator
pair so that every comparison reduces to integer arithmetic the kernel can
evaluate.  All denominators used are positive. -/
structure Frac where
  num : Int
  den : Nat
deriving DecidableEq, Repr

/-- Embed an integer as a scalar. -/
def Frac.ofInt (n : Int) : Frac := ⟨n, 1⟩

/-- Exact subtraction on scalars. -/
def Frac.sub (a b : Frac) : Frac := ⟨a.num * b.den - b.num * a.den, a.den * b.den⟩

/-- Exact addition on scalars. -/
def Frac.add (a b : Frac) : Frac := ⟨a.num * b.den + b.num * a.den, a.den * b.den⟩

/-- Exact multiplication on scalars. -/
def Frac.mul (a b : Frac) : Frac := ⟨a.num * b.num, a.den * b.den⟩

/-- Absolute value of a scalar. -/
def Frac.abs (a : Frac) : Frac := ⟨|a.num|, a.den⟩

/-- Comparison of scalars; sound because all denominators in use are
positive. -/
def Frac.le (a b : Frac) : Bool := decide (a.num * (b.den : Int) ≤ b.num * (a.den : Int))

/-- Default relative tolerance of `equal` (`rtol=1e-5`). -/
def defaultRtol : Frac := ⟨1, 100000⟩

/-- Default absolute tolerance of `equal` (`atol=1e-9`). -/
def defaultAtol : Frac := ⟨1, 1000000000⟩

/-- Numeric interfaces (`qml.math.get_interface` results): the plain numpy
interface and the ML-framework interfaces. -/
inductive Interface where
  | numpy
  | autograd
  | jax
  | torch
  | tf
deriving DecidableEq, Repr

/-- Tensor payload: a scalar, a rank-1 array, or a rank-2 array.  The source
handles arbitrary rank; ranks up to 2 (a batch of vectors) cover the
properties at issue. -/
inductive TData where
  | scalar (v : Frac)
  | vector (elems : List Frac)
  | matrix (rows : List (List Frac))
deriving DecidableEq, Repr

/-- Leading dimension of a tensor payload: `qml.math.shape(x)[0]`, with
`none` when `len(qml.math.shape(x)) == 0`. -/
def TData.shape0 : TData → Option Nat
  | .scalar _ => none
  | .vector es => some es.length
  | .matrix rs => some rs.length

/-- Indexing along the leading dimension, `x[b]`.  Only reached on payloads
whose leading dimension was validated, so the scalar case is arbitrary. -/
def TData.index (b : Nat) : TData → TData
  | .scalar _ => .scalar ⟨0, 1⟩
  | .vector es => .scalar (es.getD b ⟨0, 1⟩)
  | .matrix rs => .vector (rs.getD b [])

/-- A parameter value: a tensor payload together with the interface that
owns it and its trainability flag (`requires_grad`). -/
structure Tensor where
  val : TData
  intf : Interface
  grad : Bool
deriving DecidableEq, Repr

/-- Default tensor used for out-of-range list access in the embedding. -/
def defaultTensor : Tensor := ⟨.scalar ⟨0, 1⟩, .numpy, false⟩

instance : Inhabited Tensor := ⟨defaultTensor⟩

/-- `qml.math.allclose(a, b, rtol, atol)`: elementwise
`|a - b| <= atol + rtol * |b|`.  Shape-mismatched comparisons are modelled
as not close; the claims only exercise matching shapes. -/
def allclose (x y : TData) (rtol atol : Frac) : Bool :=
  match x, y with
  | .scalar a, .scalar b =>
    Frac.le (Frac.abs (Frac.sub a b)) (Frac.add atol (Frac.mul rtol (Frac.abs b)))
  | .vector as, .vector bs =>
    as.length == bs.length &&
      (as.zip bs).all fun p =>
        Frac.le (Frac.abs (Frac.sub p.1 p.2)) (Frac.add atol (Frac.mul rtol (Frac.abs p.2)))
  | .matrix as, .matrix bs =>
    as.length == bs.length &&
      (as.zip bs).all fun rp =>
        rp.1.length == rp.2.length &&
          (rp.1.zip rp.2).all fun p =>
            Frac.le (Frac.abs (Frac.sub p.1 p.2)) (Frac.add atol (Frac.mul rtol (Frac.abs p.2)))
  | _, _ => false

/-! ## Model of `pennylane/ops/functions/equal.py`

An `Operator` is modelled as a record carrying its concrete class name, its
flattened parameter list, wires, hyperparameters, arithmetic depth and the
legacy inverse flag.  A `MeasurementProcess` is modelled as a record
carrying its runtime class (plain, or one of the three registered
subclasses), its declared return-type tag, optional observable, wires and
per-basis-state eigenvalues; the fields `logBase`, `H` and `k` are only
meaningful on the subclasses that define them. -/

/-- The concrete class of an operator (e.g. RX, RY).  Distinct operator
classes are unrelated by subclassing. -/
structure PyOperator where
  cls : String
  data : List Tensor
  wires : List Nat
  hyper : List (String × Int)
  arithmeticDepth : Nat
  inverse : Bool
deriving DecidableEq, Repr

/-- Runtime class of a measurement: the plain `MeasurementProcess` class or
one of its subclasses `_VnEntropy`, `_MutualInfo`, `_ShadowExpval`. -/
inductive MKind where
  | plain
  | vnEntropy
  | mutualInfo
  | shadowExpval
deriving DecidableEq, Repr

/-- Declared return-type tag of a measurement. -/
inductive RetType where
  | expectation
  | variance
  | probs
  | sample
  | stateR
  | countsR
  | vnEntropyT
  | mutualInfoT
  | shadowExpvalT
deriving DecidableEq, Repr

/-- Measurement record.  `eigvals` is modelled from the spec: the
per-basis-state eigenvalues returned by the `eigvals()` method.  Python
dict equality on hyperparameters and Python `==` on Hamiltonian operands
are modelled by structural equality on canonical representations. -/
structure PyMeasurement where
  kind : MKind
  returnType : RetType
  obs : Option PyOperator
  wires : List Nat
  eigvals : List Frac
  logBase : Option Int
  H : Option PyOperator
  k : Nat
deriving DecidableEq, Repr

/-- An argument of `equal`: an operator or a measurement process. -/
inductive PyObj where
  | op (o : PyOperator)
  | meas (m : PyMeasurement)
deriving DecidableEq, Repr

/-- The dispatch variant of an argument, per the spec: all operators form
one variant; each measurement runtime class is its own variant. -/
inductive Variant where
  | operatorV
  | plainV
  | vnV
  | miV
  | shadowV
deriving DecidableEq, Repr

/-- Variant of an object. -/
def variantOf : PyObj → Variant
  | .op _ => .operatorV
  | .meas m =>
    match m.kind with
    | .plain => .plainV
    | .vnEntropy => .vnV
    | .mutualInfo => .miV
    | .shadowExpval => .shadowV

/-- `isinstance(op2, type(op1))`: whether the runtime class of the second
object is the class of the first or one of its subclasses.  The three
measurement subclasses are subclasses of the plain measurement class;
distinct operator classes are unrelated. -/
def isinst (op2 op1 : PyObj) : Bool :=
  match op2, op1 with
  | .op o2, .op o1 => o2.cls == o1.cls
  | .meas m2, .meas m1 =>
    match m1.kind with
    | .plain => true
    | k => m2.kind == k
  | _, _ => false

/-- `_equal_operator`: comparison of two operators, dispatched when the
first argument is an `Operator`. -/
def equal_operator (o1 o2 : PyOperator) (check_interface check_trainability : Bool)
    (rtol atol : Frac) : Except String Bool :=
  if o1.arithmeticDepth ≠ o2.arithmeticDepth then .ok false
  else if 0 < o1.arithmeticDepth then
    .error "Comparison of operators with an arithmetic depth larger than 0 is not yet implemented."
  else if ¬ ((o1.data.zip o2.data).all fun p => allclose p.1.val p.2.val rtol atol) then .ok false
  else if o1.wires ≠ o2.wires then .ok false
  else if o1.hyper ≠ o2.hyper then .ok false
  else if check_trainability && ¬ ((o1.data.zip o2.data).all fun p => p.1.grad == p.2.grad) then
    .ok false
  else if check_interface && ¬ ((o1.data.zip o2.data).all fun p => p.1.intf == p.2.intf) then
    .ok false
  else .ok (o1.inverse == o2.inverse)

/-- The recursive call `equal(op1.obs, op2.obs)` made by
`_equal_measurements`, inlined for observables: the initial
`isinstance(op2, type(op1))` rejection followed by `_equal_operator` with
the default keyword arguments. -/
def obs_equal (o1 o2 : PyOperator) : Except String Bool :=
  if ¬ (o1.cls == o2.cls) then .ok false
  else equal_operator o1 o2 true true defaultRtol defaultAtol

/-- `_equal_measurements`: comparison registered for plain measurement
processes.  The observable comparison is recursive when both sides declare
an observable and falls back to `op1.obs == op2.obs` (true only when both
are absent) otherwise. -/
def equal_measurements (m1 m2 : PyMeasurement) : Except String Bool :=
  let return_types_match := m1.returnType == m2.returnType
  let wires_match := m1.wires == m2.wires
  let eigvals_match := m1.eigvals == m2.eigvals
  match m1.obs, m2.obs with
  | some o1, some o2 =>
    match obs_equal o1 o2 with
    | .error e => .error e
    | .ok observables_match =>
      .ok (return_types_match && observables_match && wires_match && eigvals_match)
  | o1, o2 =>
    let observables_match := o1.isNone && o2.isNone
    .ok (return_types_match && observables_match && wires_match && eigvals_match)

/-- `_equal_shadow_measurements`: comparison registered for the
classical-shadow-expectation subclass. -/
def equal_shadow_measurements (m1 m2 : PyMeasurement) : Bool :=
  (m1.returnType == m2.returnType) && (m1.wires == m2.wires)
    && (m1.H == m2.H) && (m1.k == m2.k)

/-- `equal`: the initial `isinstance(op2, type(op1))` fast rejection
followed by the single-dispatch on the runtime class of the first
argument. -/
def equal (op1 op2 : PyObj) (check_interface check_trainability : Bool)
    (rtol atol : Frac) : Except String Bool :=
  if ¬ isinst op2 op1 then .ok false
  else
    match op1, op2 with
    | .op o1, .op o2 => equal_operator o1 o2 check_interface check_trainability rtol atol
    | .meas m1, .meas m2 =>
      match m1.kind with
      | .plain => equal_measurements m1 m2
      | .vnEntropy =>
        (equal_measurements m1 m2).map fun eq_m => eq_m && (m1.logBase == m2.logBase)
      | .mutualInfo =>
        (equal_measurements m1 m2).map fun eq_m => eq_m && (m1.logBase == m2.logBase)
      | .shadowExpval => .ok (equal_shadow_measurements m1 m2)
    | _, _ => .ok false

/-! ## Model of `pennylane/transforms/batch_params.py`

A tape operation is modelled as a record with an instance tag `ref`
standing for Python object identity: operations placed on a tape carry
distinct positive tags, and every newly constructed instance carries the
tag 0, so an output slot holds the identical instance as an input
operation exactly when it is equal to it as a record. -/

/-- A gate or state-preparation operation on a tape. -/
structure PyOp where
  ref : Nat
  name : String
  data : List Tensor
  wires : List Nat
deriving DecidableEq, Repr

instance : Inhabited PyOp := ⟨⟨0, "", [], []⟩⟩

/-- Shots specification of a tape: none, an integer, or a shot vector. -/
inductive Shots where
  | noShots
  | single (n : Nat)
  | vector (ns : List Nat)
deriving DecidableEq, Repr

/-- A quantum tape: state-preparation operations, gate operations, terminal
measurements, shots and the trainable-parameter index set (kept as the
sorted list of indices).  Modelled from the spec: the flattened parameter
list concatenates, in order, the data of `prep`, then `operations`. -/
structure Tape where
  prep : List PyOp
  ops : List PyOp
  measurements : List PyMeasurement
  shots : Shots
  trainableParams : List Nat
deriving DecidableEq, Repr

/-- `tape.get_parameters(trainable_only=False)`: the flattened parameter
list of the tape. -/
def Tape.getParameters (t : Tape) : List Tensor :=
  ((t.prep ++ t.ops).map PyOp.data).flatten

/-- The parameter indices selected by `batch_params`: every index under
`all_operations=True`, the trainable indices otherwise. -/
def selectedIndices (t : Tape) (all_operations : Bool) : List Nat :=
  if all_operations then List.range t.getParameters.length else t.trainableParams

/-- `qml.ops.functions.bind_new_parameters(op, new_params)`.  Modelled from
the spec: constructs a new operation instance with the same wires and the
new data; the fresh instance carries the tag 0. -/
def bind_new_parameters (op : PyOp) (new_params : List Tensor) : PyOp :=
  { op with ref := 0, data := new_params }

/-- Slicing `params[i][b]` of a parameter along its leading dimension. -/
def tensorIndex (t : Tensor) (b : Nat) : Tensor :=
  { t with val := t.val.index b }

/-- One batch slice of a list of operations: the body of the two
construction loops of `batch_params`, with the batch index brought
outermost (the per-batch results of the source loops are independent).
`idx` is the running offset into the flattened parameter list; an
operation none of whose parameter indices are selected is reused without
copying. -/
def sliceOpList (params : List Tensor) (indices : List Nat) (b : Nat) :
    Nat → List PyOp → List PyOp
  | _, [] => []
  | idx, op :: rest =>
    let n := op.data.length
    let opb :=
      if ((List.range' idx n).any fun i => indices.contains i) then
        bind_new_parameters op
          ((List.range' idx n).map fun i =>
            if indices.contains i then tensorIndex (params.getD i defaultTensor) b
            else params.getD i defaultTensor)
      else op
    opb :: sliceOpList params indices b (idx + n) rest

/-- `batch_params(tape, all_operations)`: validation of the selected
indices followed by construction of one tape per batch index.  The gate
loop walks `[op for op in tape.operations if op not in tape.prep]`, with
`tape.operations` the concatenation of prep and gate operations. -/
def batch_params (tape : Tape) (all_operations : Bool) : Except String (List Tape) :=
  let params := tape.getParameters
  let indices := selectedIndices tape all_operations
  match indices with
  | [] =>
    .error "There are no operations to transform. Either add trainable parameters, or specify all_operations=True."
  | i0 :: _ =>
    match (params.getD i0 defaultTensor).val.shape0 with
    | none => .error "Parameter does not contain a batch dimension."
    | some batch_dim =>
      if indices.all fun i => (params.getD i defaultTensor).val.shape0 == some batch_dim then
        let prepLen := (tape.prep.map PyOp.data).flatten.length
        let gateOps := (tape.prep ++ tape.ops).filter fun op => ¬ tape.prep.contains op
        .ok ((List.range batch_dim).map fun b =>
          { prep := sliceOpList params indices b 0 tape.prep
            ops := sliceOpList params indices b prepLen gateOps
            measurements := tape.measurements
            shots := tape.shots
            trainableParams := tape.trainableParams })
      else
        .error "Parameter has incorrect batch dimension. Expecting first dimension of matching length."

/-- Whether a fallible computation raised. -/
def isErr {ε α : Type} : Except ε α → Bool
  | .error _ => true
  | .ok _ => false

/-! ## Model of `pennylane/transforms/convert_to_numpy_parameters.py`

The transform copies-and-rewrites operation and observable objects, so its
frame behaviour (which objects get written) is modelled with an explicit
object heap: operations and observables are heap objects addressed by
reference; a tape holds references.  `copy.copy` on an operation copies
its data list, and `copy.copy` on a measurement gives the copy a fresh
copy of its observable (modelled from the spec: rewrites construct new
instances rather than mutating shared ones); the subsequent attribute
assignment of the unwrapped data is a heap write at the fresh
reference. -/

/-- Heap state of an operation or observable object. -/
structure OpState where
  name : String
  data : List Tensor
  wires : List Nat
deriving DecidableEq, Repr

instance : Inhabited OpState := ⟨⟨"", [], []⟩⟩

/-- The object heap: references are indices. -/
abbrev Heap := List OpState

/-- `qml.math.get_interface(*values)`: numpy when every value is owned by
the plain interface (in particular when there are no values), otherwise
the first framework interface found.  Modelled from the spec: a single
canonical interface is detected for a value list. -/
def interfaceOfData (ts : List Tensor) : Interface :=
  match ts.find? fun t => ¬ (t.intf == Interface.numpy) with
  | some t => t.intf
  | none => .numpy

/-- `qml.math.unwrap(data)`: the same values re-owned by the plain numpy
interface. -/
def unwrapData (ts : List Tensor) : List Tensor :=
  ts.map fun t => { t with intf := .numpy }

/-- A measurement on a tape of the interface-normalization transform: an
instance tag (positive on tape-held instances, 0 on fresh copies), the
return-type tag, and the reference of the optional observable. -/
structure CMeas where
  tag : Nat
  returnType : RetType
  obs : Option Nat
deriving DecidableEq, Repr

instance : Inhabited CMeas := ⟨⟨0, .expectation, none⟩⟩

/-- A tape whose operations and observables live on the heap. -/
structure CTape where
  prep : List Nat
  ops : List Nat
  measurements : List CMeas
  shots : Shots
  trainableParams : List Nat
  qfuncOutput : Nat
deriving DecidableEq, Repr

/-- Every heap reference held by a tape. -/
def CTape.allRefs (c : CTape) : List Nat :=
  c.prep ++ c.ops ++ (c.measurements.filterMap CMeas.obs)

/-- The flattened operation data of the tape (prep first, then gates). -/
def CTape.allOpData (heap : Heap) (c : CTape) : List Tensor :=
  ((c.prep ++ c.ops).map fun r => (heap.getD r default).data).flatten

/-- `circuit.get_parameters()` (with its default `trainable_only=True`):
the trainable entries of the flattened parameter list. -/
def CTape.getTrainableParameters (heap : Heap) (c : CTape) : List Tensor :=
  ((c.allOpData heap).enum.filter fun p => c.trainableParams.contains p.1).map Prod.snd

/-- `_convert_op_to_numpy_data`: reuse the operation when its data is
already owned by the plain interface; otherwise copy it and write the
unwrapped data into the copy. -/
def convert_op_to_numpy_data (heap : Heap) (r : Nat) : Heap × Nat :=
  let st := heap.getD r default
  if interfaceOfData st.data == Interface.numpy then (heap, r)
  else
    let fresh := heap.length
    ((heap ++ [st]).set fresh { st with data := unwrapData st.data }, fresh)

/-- `_convert_measurement_to_numpy_data`: reuse the measurement when it has
no observable or its observable's data is already owned by the plain
interface; otherwise copy the measurement (giving it a fresh observable
object) and write the unwrapped data into that fresh observable.  The
source distinguishes product observables only in where the unwrapped
values are gathered from; both branches write the unwrapped data to the
copied observable. -/
def convert_measurement_to_numpy_data (heap : Heap) (m : CMeas) : Heap × CMeas :=
  match m.obs with
  | none => (heap, m)
  | some r =>
    let ost := heap.getD r default
    if interfaceOfData ost.data == Interface.numpy then (heap, m)
    else
      let fresh := heap.length
      ((heap ++ [ost]).set fresh { ost with data := unwrapData ost.data },
        { m with tag := 0, obs := some fresh })

/-- Conversion threaded over a list of operation references. -/
def convertOpList (heap : Heap) : List Nat → Heap × List Nat
  | [] => (heap, [])
  | r :: rs =>
    let p := convert_op_to_numpy_data heap r
    let q := convertOpList p.1 rs
    (q.1, p.2 :: q.2)

/-- Conversion threaded over a list of measurements. -/
def convertMeasList (heap : Heap) : List CMeas → Heap × List CMeas
  | [] => (heap, [])
  | m :: ms =>
    let p := convert_measurement_to_numpy_data heap m
    let q := convertMeasList p.1 ms
    (q.1, p.2 :: q.2)

/-- `convert_to_numpy_parameters(circuit)`: detect the initial interface of
the trainable parameters, rebuild the three component lists (reusing every
component that needs no change), and preserve the trainable-parameter set
and the expected-output-structure tag.  Returns the final heap, the new
tape and the detected initial interface (the closure state of the returned
postprocessing function). -/
def convert_to_numpy_parameters (heap : Heap) (c : CTape) : Heap × CTape × Interface :=
  let initial_interface := interfaceOfData (c.getTrainableParameters heap)
  let pPrep := convertOpList heap c.prep
  let pOps := convertOpList pPrep.1 c.ops
  let pMeas := convertMeasList pOps.1 c.measurements
  (pMeas.1,
    { prep := pPrep.2
      ops := pOps.2
      measurements := pMeas.2
      shots := c.shots
      trainableParams := c.trainableParams
      qfuncOutput := c.qfuncOutput },
    initial_interface)

/-! ## Model of the result postprocessing (`_recursive_asarray`)

A raw result value is a numeric tensor, a counts mapping, a Python list or
a Python tuple.  `math.asarray` (modelled from the spec: every leaf is
re-wrapped into an array owned by the given interface) turns a tensor into
a tensor of the interface and wraps any other value whole into an array
object of the interface. -/

/-- A raw execution result value. -/
inductive PyRes where
  | tensorR (intf : Interface) (val : TData)
  | dictR (entries : List (String × Nat))
  | listR (elems : List PyRes)
  | tupleR (elems : List PyRes)
  | objArray (intf : Interface) (content : PyRes)

instance : Inhabited PyRes := ⟨.tensorR .numpy (.scalar ⟨0, 1⟩)⟩

/-- Whether a value is a counts mapping. -/
def isDict : PyRes → Bool
  | .dictR _ => true
  | _ => false

/-- `_is_count_result(r)`: a mapping, or a list all of whose elements are
mappings. -/
def is_count_result : PyRes → Bool
  | .dictR _ => true
  | .listR es => es.all isDict
  | _ => false

/-- `math.asarray(r, like)`.  Modelled from the spec: re-wraps a value into
an array owned by the given interface; a non-tensor value is wrapped whole
into an array object. -/
def asarray (intf : Interface) : PyRes → PyRes
  | .tensorR _ v => .tensorR intf v
  | r => .objArray intf r

/-- The body of the loop of `_recursive_asarray` for one element of the
result batch: counts are kept; a non-tuple is converted; a tuple is
rebuilt with counts kept and every other element converted. -/
def processElem (intf : Interface) (r : PyRes) : PyRes :=
  if is_count_result r then r
  else
    match r with
    | .tupleR es =>
      .tupleR (es.map fun e => if is_count_result e then e else asarray intf e)
    | _ => asarray intf r

/-- `_recursive_asarray(res, like)`: process every element of the batch,
then return the tuple of results, or the bare single result when the batch
has fewer than two elements (an empty batch raises). -/
def recursive_asarray (res : List PyRes) (intf : Interface) : Except String PyRes :=
  let res_ := res.map (processElem intf)
  if 1 < res_.length then .ok (.tupleR res_)
  else
    match res_ with
    | [] => .error "IndexError: list index out of range"
    | r :: _ => .ok r

/-- `cast_result_back_to_initial_interface(results)`: the postprocessing
closure returned by `convert_to_numpy_parameters`, applied with the
interface it captured. -/
def cast_result_back (initial_interface : Interface) (results : List PyRes) :
    Except String PyRes :=
  recursive_asarray results initial_interface

instance : Inhabited Tape := ⟨⟨[], [], [], .noShots, []⟩⟩

/-- Dispatch of `equal` on two operators of the same concrete class. -/
lemma equal_op_dispatch (o1 o2 : PyOperator) (ci ct : Bool) (rtol atol : Frac)
    (hc : o1.cls = o2.cls) :
    equal (.op o1) (.op o2) ci ct rtol atol = equal_operator o1 o2 ci ct rtol atol := by
  simp [equal, isinst, hc]

/-- At depth zero, `_equal_operator` never raises. -/
lemma equal_operator_ok (o1 o2 : PyOperator) (ci ct : Bool) (rtol atol : Frac)
    (h1 : o1.arithmeticDepth = 0) (h2 : o2.arithmeticDepth = 0) :
    ∃ v, equal_operator o1 o2 ci ct rtol atol = .ok v := by
  unfold equal_operator
  rw [h1, h2]
  simp only [ne_eq, lt_self_iff_false, if_false, not_true_eq_false, ite_false, if_neg]
  repeat' split
  all_goals exact ⟨_, rfl⟩

/-- `zip` only consults the common leading segments of its arguments. -/
lemma zip_eq_zip_take_min (l1 : List Tensor) (l2 : List Tensor) :
    l1.zip l2 = (l1.take (min l1.length l2.length)).zip (l2.take (min l1.length l2.length)) := by
  induction l1 generalizing l2 with
  | nil => simp
  | cons x xs ih =>
    cases l2 with
    | nil => simp
    | cons y ys => simp [Nat.succ_min_succ, ih ys]

/-! ## Concrete instances used by the claims -/

/-- Operation 1 of the two-operation scenario: a scalar parameter. -/
def c1op1 : PyOp :=
  { ref := 1, name := "RY", data := [⟨.scalar ⟨2, 1⟩, .numpy, false⟩], wires := [0] }

/-- Operation 2 of the two-operation scenario: one parameter of shape (3,). -/
def c1op2 : PyOp :=
  { ref := 2, name := "RX", data := [⟨.vector [⟨5, 1⟩, ⟨6, 1⟩, ⟨7, 1⟩], .numpy, false⟩],
    wires := [1] }

/-- The expectation-value measurement of the scenario. -/
def c1meas : PyMeasurement :=
  { kind := .plain, returnType := .expectation,
    obs := some { cls := "PauliZ", data := [], wires := [0], hyper := [],
                  arithmeticDepth := 0, inverse := false },
    wires := [0], eigvals := [⟨1, 1⟩, ⟨-1, 1⟩], logBase := none, H := none, k := 1 }

/-- A tape with two gate operations and one expectation-value measurement;
operation 1 has a scalar parameter and operation 2 a parameter of
shape (3,). -/
def c1tape : Tape :=
  { prep := [], ops := [c1op1, c1op2], measurements := [c1meas], shots := .noShots,
    trainableParams := [1] }

/-- A depth-zero operator with one parameter. -/
def c5a : PyOperator :=
  { cls := "U", data := [⟨.scalar ⟨1, 1⟩, .numpy, false⟩], wires := [0], hyper := [],
    arithmeticDepth := 0, inverse := false }

/-- The same operator shape with a second surplus parameter. -/
def c5b : PyOperator :=
  { c5a with data := [⟨.scalar ⟨1, 1⟩, .numpy, false⟩, ⟨.scalar ⟨2, 1⟩, .numpy, false⟩] }

/-- A plain measurement process declaring the entropy return-type tag. -/
def c2a : PyMeasurement :=
  { kind := .plain, returnType := .vnEntropyT, obs := none, wires := [0], eigvals := [],
    logBase := none, H := none, k := 1 }

/-- An entropy-variant measurement with the same tag and data. -/
def c2b : PyMeasurement := { c2a with kind := .vnEntropy, logBase := some 2 }

/-- Whether an `equal` argument is a measurement process. -/
def PyObj.isMeas : PyObj → Bool
  | .op _ => false
  | .meas _ => true

/-! ## Claims -/

/-- C1, counterexample: on the claimed scenario (operation 1 scalar,
operation 2 of shape (3,), `all_operations=True`) `batch_params` raises a
usage error instead of yielding 3 tapes: the scalar parameter is itself
selected and its shape has no leading dimension. -/
theorem c1_counterexample :
    batch_params c1tape true = .error "Parameter does not contain a batch dimension." :=
  rfl

/-- C1, amended: the scenario behaves as claimed once the scalar parameter
of operation 1 is not selected: with `all_operations=False` and exactly
operation 2's parameter trainable, `batch_params` yields 3 tapes, each
holding operation 1 as the identical instance (the input record, tag 1,
whereas every rebuilt instance carries tag 0) and operation 2 holding the
scalar slices `param[0]`, `param[1]`, `param[2]` respectively. -/
theorem c1_theorem :
    ∃ ts, batch_params c1tape false = .ok ts ∧ ts.length = 3 ∧
      (∀ t ∈ ts, t.ops.getD 0 default = c1op1) ∧
      ((ts.getD 0 default).ops.getD 1 default).data
        = [⟨.scalar ⟨5, 1⟩, .numpy, false⟩] ∧
      ((ts.getD 1 default).ops.getD 1 default).data
        = [⟨.scalar ⟨6, 1⟩, .numpy, false⟩] ∧
      ((ts.getD 2 default).ops.getD 1 default).data
        = [⟨.scalar ⟨7, 1⟩, .numpy, false⟩] := by
  refine ⟨_, rfl, rfl, ?_, rfl, rfl, rfl⟩
  decide

/-- C2, counterexample: a plain measurement process and an entropy-variant
measurement are different runtime variants, yet `equal` returns true for
them: the fast reject checks `isinstance(op2, type(op1))`, which the
subclass instance passes, and the plain-measurement comparison then
succeeds. -/
theorem c2_counterexample :
    variantOf (.meas c2a) ≠ variantOf (.meas c2b) ∧
    equal (.meas c2a) (.meas c2b) true true defaultRtol defaultAtol = .ok true :=
  ⟨by decide, rfl⟩

/-- C2, amended: `equal(a, b)` returns false before any variant-specific
comparison whenever the runtime variant of `b` is neither the variant of
`a` nor a subclass of it; equivalently, for differing variants the
unconditional rejection holds except when `a` is a plain measurement and
`b` a measurement subvariant, in which case the plain-measurement
comparison runs and can return true. -/
theorem c2_theorem (a b : PyObj) (ci ct : Bool) (rtol atol : Frac)
    (hv : variantOf a ≠ variantOf b)
    (hnsub : ¬ (variantOf a = .plainV ∧ b.isMeas = true)) :
    equal a b ci ct rtol atol = .ok false := by
  cases a with
  | op o1 =>
    cases b with
    | op o2 => exact absurd rfl hv
    | meas m2 => simp [equal, isinst]
  | meas m1 =>
    cases b with
    | op o2 =>
      cases h : m1.kind <;> simp [equal, isinst, h]
    | meas m2 =>
      have hk : m1.kind ≠ .plain := by
        intro h
        exact hnsub ⟨by simp [variantOf, h], rfl⟩
      have hkk : m2.kind ≠ m1.kind := by
        intro h
        apply hv
        cases hm : m1.kind <;> simp [variantOf, h, hm]
      cases h : m1.kind with
      | plain => exact absurd h hk
      | vnEntropy => simp [equal, isinst, h, show m2.kind ≠ .vnEntropy from h ▸ hkk]
      | mutualInfo => simp [equal, isinst, h, show m2.kind ≠ .mutualInfo from h ▸ hkk]
      | shadowExpval => simp [equal, isinst, h, show m2.kind ≠ .shadowExpval from h ▸ hkk]

/-- C2, witness: a depth-zero operator versus a plain measurement differ in
variant and are rejected. -/
theorem c2_witness :
    equal (.op c5a) (.meas c2a) true true defaultRtol defaultAtol = .ok false :=
  c2_theorem (.op c5a) (.meas c2a) true true defaultRtol defaultAtol
    (by decide) (by decide)

/-- C5, counterexample: two depth-zero operators of the same class whose
parameter lists have different lengths, agreeing on the common first
parameter, compare equal: `zip` truncates the longer list, so the length
mismatch is not an equality-determining signal. -/
theorem c5_counterexample :
    c5a.data.length ≠ c5b.data.length ∧
    c5a.arithmeticDepth = 0 ∧ c5b.arithmeticDepth = 0 ∧
    equal (.op c5a) (.op c5b) true true defaultRtol defaultAtol = .ok true :=
  ⟨by decide, rfl, rfl, rfl⟩

/-- C5, amended: comparing two depth-zero operators of the same runtime
variant, `equal` returns a boolean rather than raising regardless of the
parameter-list lengths, but a length mismatch alone does not make them
unequal: the comparison only consults the common leading segment of the
two parameter lists, so the result is unchanged when both lists are
truncated to their common length. -/
theorem c5_theorem (o1 o2 : PyOperator) (ci ct : Bool) (rtol atol : Frac)
    (h1 : o1.arithmeticDepth = 0) (h2 : o2.arithmeticDepth = 0) :
    (∃ v, equal (.op o1) (.op o2) ci ct rtol atol = .ok v) ∧
    equal (.op o1) (.op o2) ci ct rtol atol =
      equal (.op { o1 with data := o1.data.take (min o1.data.length o2.data.length) })
            (.op { o2 with data := o2.data.take (min o1.data.length o2.data.length) })
            ci ct rtol atol := by
  constructor
  · by_cases hc : (o2.cls == o1.cls) = true
    · have hcls : o1.cls = o2.cls := by
        have := of_decide_eq_true (by simpa [BEq.beq] using hc)
        exact this.symm
      rw [equal_op_dispatch o1 o2 ci ct rtol atol hcls]
      exact equal_operator_ok o1 o2 ci ct rtol atol h1 h2
    · refine ⟨false, ?_⟩
      simp [equal, isinst, hc]
  · simp only [equal, isinst, equal_operator]
    rw [← zip_eq_zip_take_min o1.data o2.data]

/-- C5, witness: the truncation invariance at the concrete mismatched
pair. -/
theorem c5_witness :
    equal (.op c5a) (.op c5b) true true defaultRtol defaultAtol =
      equal (.op { c5a with data := c5a.data.take (min c5a.data.length c5b.data.length) })
            (.op { c5b with data := c5b.data.take (min c5a.data.length c5b.data.length) })
            true true defaultRtol defaultAtol :=
  (c5_theorem c5a c5b true true defaultRtol defaultAtol rfl rfl).2

/-- C9: for two operators of the same runtime class, `equal` returns false
when the arithmetic depths differ, and when the depths agree and are
positive it raises the not-implemented error instead of returning a
boolean. -/
theorem c9_theorem (o1 o2 : PyOperator) (ci ct : Bool) (rtol atol : Frac)
    (hcls : o1.cls = o2.cls) :
    (o1.arithmeticDepth ≠ o2.arithmeticDepth →
      equal (.op o1) (.op o2) ci ct rtol atol = .ok false) ∧
    (o1.arithmeticDepth = o2.arithmeticDepth → 0 < o1.arithmeticDepth →
      equal (.op o1) (.op o2) ci ct rtol atol =
        .error "Comparison of operators with an arithmetic depth larger than 0 is not yet implemented.") := by
  constructor
  · intro hd
    rw [equal_op_dispatch o1 o2 ci ct rtol atol hcls]
    unfold equal_operator
    rw [if_pos hd]
  · intro hd hpos
    rw [equal_op_dispatch o1 o2 ci ct rtol atol hcls]
    unfold equal_operator
    rw [if_neg (fun h => h hd), if_pos hpos]

/-- A depth-one operator used to witness the depth behaviour of C9. -/
def c9a : PyOperator :=
  { cls := "Sum", data := [], wires := [0], hyper := [], arithmeticDepth := 1,
    inverse := false }

/-- C9, witness: two depth-one operators of the same class make `equal`
raise the not-implemented error. -/
theorem c9_witness :
    equal (.op c9a) (.op c9a) true true defaultRtol defaultAtol =
      .error "Comparison of operators with an arithmetic depth larger than 0 is not yet implemented." :=
  (c9_theorem c9a c9a true true defaultRtol defaultAtol rfl).2 rfl (by decide)

/-- A count kept by the postprocessing is kept verbatim. -/
lemma processElem_count (intf : Interface) (r : PyRes)
    (h : is_count_result r = true) : processElem intf r = r := by
  simp [processElem, h]

/-- The component of the postprocessed batch corresponding to input
position `i`: the bare output for a collapsed single-element batch, the
`i`-th tuple entry otherwise. -/
def batchComponent (out : PyRes) (n i : Nat) : PyRes :=
  if n ≤ 1 then out
  else
    match out with
    | .tupleR es => es.getD i default
    | r => r

/-- The postprocessing applies `processElem` componentwise: position `i` of
the output corresponds to `processElem` at position `i` of the input. -/
lemma cast_result_back_component (intf : Interface) (rs : List PyRes) (hne : rs ≠ []) :
    ∃ out, cast_result_back intf rs = .ok out ∧
      ∀ i, i < rs.length →
        batchComponent out rs.length i = processElem intf (rs.getD i default) := by
  match rs with
  | [] => exact absurd rfl hne
  | [r] =>
    refine ⟨processElem intf r, ?_, ?_⟩
    · simp [cast_result_back, recursive_asarray]
    · intro i hi
      have h0 : i = 0 := by
        simpa [Nat.lt_one_iff] using hi
      subst h0
      simp [batchComponent]
  | r1 :: r2 :: rest =>
    refine ⟨.tupleR ((r1 :: r2 :: rest).map (processElem intf)), ?_, ?_⟩
    · have hl : 1 < ((r1 :: r2 :: rest).map (processElem intf)).length := by
        simp
      simp only [cast_result_back, recursive_asarray, if_pos hl]
    · intro i hi
      have hn : ¬ (r1 :: r2 :: rest).length ≤ 1 := by
        simp
      simp only [batchComponent, if_neg hn]
      rw [List.getD_eq_getElem?_getD, List.getElem?_map, List.getD_eq_getElem?_getD,
        List.getElem?_eq_getElem hi]
      simp

/-- C10 (implicit): the postprocessing function returned by
`convert_to_numpy_parameters` collapses a single-element result batch to
the bare processed result, and for a batch of two or more results returns
a tuple of the same length as its input. -/
theorem c10_theorem (intf : Interface) (rs : List PyRes) :
    (∀ r, rs = [r] → cast_result_back intf rs = .ok (processElem intf r)) ∧
    (2 ≤ rs.length →
      ∃ es, cast_result_back intf rs = .ok (.tupleR es) ∧ es.length = rs.length) := by
  constructor
  · intro r h
    subst h
    simp [cast_result_back, recursive_asarray]
  · intro h
    refine ⟨rs.map (processElem intf), ?_, by simp⟩
    have hl : 1 < (rs.map (processElem intf)).length := by
      simp
      omega
    simp only [cast_result_back, recursive_asarray, if_pos hl]

/-- A numeric leaf result. -/
def w10a : PyRes := .tensorR .numpy (.scalar ⟨3, 1⟩)

/-- A counts result. -/
def w10b : PyRes := .dictR [("00", 5)]

/-- C10, witness: a singleton batch collapses to the bare result and a
two-element batch is postprocessed without error. -/
theorem c10_witness :
    cast_result_back .torch [w10a] = .ok (processElem .torch w10a) ∧
    isErr (cast_result_back .torch [w10a, w10b]) = false := by
  constructor
  · exact (c10_theorem .torch [w10a]).1 w10a rfl
  · obtain ⟨es, h1, _⟩ := (c10_theorem .torch [w10a, w10b]).2 (by decide)
    rw [h1]
    rfl

/-- A result batch holding a tuple nested inside a tuple, with a counts
mapping at depth three. -/
def c8deep : PyRes := .tupleR [.tupleR [.dictR [("00", 3)]]]

/-- C8, counterexample: the postprocessing does not recurse past one tuple
level: a tuple nested inside a per-tape tuple is numerically wrapped
whole, so a counts mapping at that depth is not returned unchanged. -/
theorem c8_counterexample :
    cast_result_back .jax [c8deep] =
      .ok (.tupleR [.objArray .jax (.tupleR [.dictR [("00", 3)]])]) ∧
    (PyRes.objArray .jax (.tupleR [.dictR [("00", 3)]]) : PyRes) ≠
      .tupleR [.dictR [("00", 3)]] :=
  ⟨rfl, fun h => PyRes.noConfusion h⟩

/-- C8, amended: the postprocessing function leaves count-shaped results
unchanged at the two levels of the batch structure it walks: a count at
the top level of the batch, and a count directly inside a top-level tuple,
are returned unchanged; deeper nestings are not recursed into. -/
theorem c8_theorem (intf : Interface) (rs : List PyRes) (hne : rs ≠ []) :
    ∃ out, cast_result_back intf rs = .ok out ∧
      ∀ i, i < rs.length →
        (is_count_result (rs.getD i default) = true →
          batchComponent out rs.length i = rs.getD i default) ∧
        (∀ es, rs.getD i default = .tupleR es →
          ∀ j, j < es.length → is_count_result (es.getD j default) = true →
            ∃ es', batchComponent out rs.length i = .tupleR es' ∧
              es'.length = es.length ∧ es'.getD j default = es.getD j default) := by
  obtain ⟨out, hout, hcomp⟩ := cast_result_back_component intf rs hne
  refine ⟨out, hout, ?_⟩
  intro i hi
  rw [hcomp i hi]
  constructor
  · exact processElem_count intf _
  · intro es hes j hj hcj
    rw [hes]
    refine ⟨es.map fun e => if is_count_result e then e else asarray intf e, ?_, by simp, ?_⟩
    · simp [processElem, is_count_result]
    · rw [List.getD_eq_getElem?_getD, List.getElem?_map, List.getD_eq_getElem?_getD,
        List.getElem?_eq_getElem hj]
      simp only [Option.map_some, Option.getD_some]
      rw [List.getD_eq_getElem?_getD, List.getElem?_eq_getElem hj] at hcj
      simp only [Option.getD_some] at hcj
      simp [hcj]

/-- A batch exercising counts at both walked levels. -/
def w8batch : List PyRes :=
  [.dictR [("01", 2)], .tupleR [.dictR [("11", 4)], .tensorR .torch (.scalar ⟨1, 2⟩)]]

/-- C8, witness: the top-level count of the concrete batch is preserved at
its position in the postprocessed output. -/
theorem c8_witness :
    batchComponent (.tupleR (w8batch.map (processElem .torch))) w8batch.length 0 =
      w8batch.getD 0 default := by
  obtain ⟨out, hout, hprop⟩ := c8_theorem .torch w8batch (List.cons_ne_nil _ _)
  have hval : out = .tupleR (w8batch.map (processElem .torch)) := by
    have hcomp : cast_result_back .torch w8batch =
        .ok (.tupleR (w8batch.map (processElem .torch))) := rfl
    rw [hcomp] at hout
    exact (Except.ok.inj hout).symm
  rw [← hval]
  exact (hprop 0 (by decide)).1 (by decide)

/-- C7: for a tape whose selected parameters all carry the uniform leading
batch dimension `B`, `batch_params` produces exactly `B` output tapes, and
every output tape preserves the input tape's trainable-parameter set and
shots specification. -/
theorem c7_theorem (tape : Tape) (all_operations : Bool) (B : Nat)
    (hne : selectedIndices tape all_operations ≠ [])
    (hB : ∀ i ∈ selectedIndices tape all_operations,
      ((tape.getParameters.getD i defaultTensor).val).shape0 = some B) :
    ∃ tapes, batch_params tape all_operations = .ok tapes ∧ tapes.length = B ∧
      ∀ t ∈ tapes, t.trainableParams = tape.trainableParams ∧ t.shots = tape.shots := by
  cases h : selectedIndices tape all_operations with
  | nil => exact absurd h hne
  | cons i0 rest =>
    have h0 : ((tape.getParameters.getD i0 defaultTensor).val).shape0 = some B :=
      hB i0 (h ▸ List.mem_cons_self i0 rest)
    have hall : ((i0 :: rest).all fun i =>
        ((tape.getParameters.getD i defaultTensor).val).shape0 == some B) = true := by
      rw [List.all_eq_true]
      intro i hi
      simp only [beq_iff_eq]
      exact hB i (h ▸ hi)
    simp only [batch_params, h, h0, hall, if_true]
    refine ⟨_, rfl, by simp, ?_⟩
    intro t ht
    simp only [List.mem_map, List.mem_range] at ht
    obtain ⟨b, _, rfl⟩ := ht
    exact ⟨rfl, rfl⟩

/-- C7, witness: the concrete two-operation tape with batch dimension 3
yields exactly 3 tapes. -/
theorem c7_witness : (batch_params c1tape false).map List.length = .ok 3 := by
  obtain ⟨tapes, h1, h2, _⟩ := c7_theorem c1tape false 3 (by decide) (by decide)
  rw [h1]
  show Except.ok tapes.length = Except.ok 3
  rw [h2]

/-- C4: under the tape invariant that selected indices are valid offsets
into the flattened parameter list, `batch_params` raises a usage error
exactly when no parameter indices are selected, or the first selected
parameter has no dimensions at all, or some selected parameter's leading
dimension differs from the batch size inferred from the first selected
parameter. -/
theorem c4_theorem (tape : Tape) (all_operations : Bool)
    (_hwf : ∀ i ∈ selectedIndices tape all_operations, i < tape.getParameters.length) :
    isErr (batch_params tape all_operations) = true ↔
      selectedIndices tape all_operations = [] ∨
      (∃ i0 rest, selectedIndices tape all_operations = i0 :: rest ∧
        ((tape.getParameters.getD i0 defaultTensor).val).shape0 = none) ∨
      (∃ i0 rest B, selectedIndices tape all_operations = i0 :: rest ∧
        ((tape.getParameters.getD i0 defaultTensor).val).shape0 = some B ∧
        ∃ i ∈ selectedIndices tape all_operations,
          ((tape.getParameters.getD i defaultTensor).val).shape0 ≠ some B) := by
  cases h : selectedIndices tape all_operations with
  | nil =>
    have herr : batch_params tape all_operations =
        .error "There are no operations to transform. Either add trainable parameters, or specify all_operations=True." := by
      simp only [batch_params, h]
    rw [herr]
    exact ⟨fun _ => Or.inl rfl, fun _ => rfl⟩
  | cons i0 rest =>
    cases h0 : ((tape.getParameters.getD i0 defaultTensor).val).shape0 with
    | none =>
      have herr : batch_params tape all_operations =
          .error "Parameter does not contain a batch dimension." := by
        simp only [batch_params, h, h0]
      rw [herr]
      exact ⟨fun _ => Or.inr (Or.inl ⟨i0, rest, rfl, h0⟩), fun _ => rfl⟩
    | some B =>
      cases hall : ((i0 :: rest).all fun i =>
          ((tape.getParameters.getD i defaultTensor).val).shape0 == some B) with
      | true =>
        have hok : isErr (batch_params tape all_operations) = false := by
          simp only [batch_params, h, h0, hall, if_true, isErr]
        rw [hok]
        simp only [Bool.false_eq_true, false_iff]
        rintro (hnil | ⟨i0x, restx, heq, hnone⟩ | ⟨i0x, restx, Bx, heq, hsome, i, hi, hnei⟩)
        · exact List.cons_ne_nil i0 rest hnil
        · cases heq
          rw [h0] at hnone
          exact Option.noConfusion hnone
        · cases heq
          rw [h0] at hsome
          have hBx : Bx = B := (Option.some_inj.mp hsome).symm
          subst hBx
          have hcl := (List.all_eq_true.mp hall) i hi
          rw [beq_iff_eq] at hcl
          exact hnei hcl
      | false =>
        have herr : batch_params tape all_operations =
            .error "Parameter has incorrect batch dimension. Expecting first dimension of matching length." := by
          simp only [batch_params, h, h0, hall, Bool.false_eq_true, if_false]
        rw [herr]
        simp only [isErr, true_iff]
        obtain ⟨i, hi, hni⟩ := List.all_eq_false.mp hall
        rw [beq_iff_eq] at hni
        exact Or.inr (Or.inr ⟨i0, rest, B, rfl, h0, i, hi, hni⟩)

/-- A tape with no trainable parameters. -/
def w4tape : Tape :=
  { prep := [], ops := [c1op1], measurements := [c1meas], shots := .noShots,
    trainableParams := [] }

/-- C4, witness: with no trainable parameters and `all_operations=False`,
`batch_params` raises. -/
theorem c4_witness : isErr (batch_params w4tape false) = true :=
  (c4_theorem w4tape false (by decide)).mpr (Or.inl (by decide))

/-- Appending a fresh object preserves every existing heap cell. -/
lemma getD_heap_snoc (l : Heap) (x : OpState) (j : Nat) (hj : j < l.length) :
    (l ++ [x]).getD j default = l.getD j default := by
  rw [List.getD_eq_getElem?_getD, List.getD_eq_getElem?_getD, List.getElem?_append_left hj]

/-- Writing one heap cell preserves every other cell. -/
lemma getD_heap_set_ne (l : Heap) (i j : Nat) (x : OpState) (h : i ≠ j) :
    (l.set i x).getD j default = l.getD j default := by
  rw [List.getD_eq_getElem?_getD, List.getD_eq_getElem?_getD, List.getElem?_set_ne h]

/-- Converting one operation writes no pre-existing heap cell. -/
lemma convert_op_preserve (heap : Heap) (r j : Nat) (hj : j < heap.length) :
    (convert_op_to_numpy_data heap r).1.getD j default = heap.getD j default := by
  unfold convert_op_to_numpy_data
  by_cases hc : (interfaceOfData (heap.getD r default).data == Interface.numpy) = true
  · rw [if_pos hc]
  · rw [if_neg hc]
    have hne : heap.length ≠ j := by omega
    show ((heap ++ [_]).set heap.length _).getD j default = heap.getD j default
    rw [getD_heap_set_ne _ _ _ _ hne, getD_heap_snoc _ _ _ hj]

/-- Converting one operation only grows the heap. -/
lemma convert_op_length (heap : Heap) (r : Nat) :
    heap.length ≤ (convert_op_to_numpy_data heap r).1.length := by
  unfold convert_op_to_numpy_data
  by_cases hc : (interfaceOfData (heap.getD r default).data == Interface.numpy) = true
  · rw [if_pos hc]
  · rw [if_neg hc]
    simp

/-- Converting one measurement writes no pre-existing heap cell. -/
lemma convert_meas_preserve (heap : Heap) (m : CMeas) (j : Nat) (hj : j < heap.length) :
    (convert_measurement_to_numpy_data heap m).1.getD j default = heap.getD j default := by
  unfold convert_measurement_to_numpy_data
  cases m.obs with
  | none => rfl
  | some r =>
    dsimp only
    by_cases hc : (interfaceOfData (heap.getD r default).data == Interface.numpy) = true
    · rw [if_pos hc]
    · rw [if_neg hc]
      have hne : heap.length ≠ j := by omega
      show ((heap ++ [_]).set heap.length _).getD j default = heap.getD j default
      rw [getD_heap_set_ne _ _ _ _ hne, getD_heap_snoc _ _ _ hj]

/-- Converting one measurement only grows the heap. -/
lemma convert_meas_length (heap : Heap) (m : CMeas) :
    heap.length ≤ (convert_measurement_to_numpy_data heap m).1.length := by
  unfold convert_measurement_to_numpy_data
  cases m.obs with
  | none => exact Nat.le_refl _
  | some r =>
    dsimp only
    by_cases hc : (interfaceOfData (heap.getD r default).data == Interface.numpy) = true
    · rw [if_pos hc]
    · rw [if_neg hc]
      simp

/-- Converting an operation list writes no pre-existing heap cell. -/
lemma convertOpList_preserve (rs : List Nat) (j : Nat) :
    ∀ heap : Heap, j < heap.length →
      (convertOpList heap rs).1.getD j default = heap.getD j default ∧
      heap.length ≤ (convertOpList heap rs).1.length := by
  induction rs with
  | nil => exact fun heap _ => ⟨rfl, Nat.le_refl _⟩
  | cons r rs ih =>
    intro heap hj
    have h2 := convert_op_length heap r
    obtain ⟨ih1, ih2⟩ := ih (convert_op_to_numpy_data heap r).1 (Nat.lt_of_lt_of_le hj h2)
    exact ⟨ih1.trans (convert_op_preserve heap r j hj), Nat.le_trans h2 ih2⟩

/-- Converting a measurement list writes no pre-existing heap cell. -/
lemma convertMeasList_preserve (ms : List CMeas) (j : Nat) :
    ∀ heap : Heap, j < heap.length →
      (convertMeasList heap ms).1.getD j default = heap.getD j default ∧
      heap.length ≤ (convertMeasList heap ms).1.length := by
  induction ms with
  | nil => exact fun heap _ => ⟨rfl, Nat.le_refl _⟩
  | cons m ms ih =>
    intro heap hj
    have h2 := convert_meas_length heap m
    obtain ⟨ih1, ih2⟩ := ih (convert_measurement_to_numpy_data heap m).1 (Nat.lt_of_lt_of_le hj h2)
    exact ⟨ih1.trans (convert_meas_preserve heap m j hj), Nat.le_trans h2 ih2⟩

/-- Converting an operation list only grows the heap. -/
lemma convertOpList_length (rs : List Nat) :
    ∀ heap : Heap, heap.length ≤ (convertOpList heap rs).1.length := by
  induction rs with
  | nil => exact fun _ => Nat.le_refl _
  | cons r rs ih =>
    intro heap
    exact Nat.le_trans (convert_op_length heap r) (ih (convert_op_to_numpy_data heap r).1)

/-- Converting a measurement list only grows the heap. -/
lemma convertMeasList_length (ms : List CMeas) :
    ∀ heap : Heap, heap.length ≤ (convertMeasList heap ms).1.length := by
  induction ms with
  | nil => exact fun _ => Nat.le_refl _
  | cons m ms ih =>
    intro heap
    exact Nat.le_trans (convert_meas_length heap m) (ih (convert_measurement_to_numpy_data heap m).1)

/-- An operation whose data is already owned by the plain interface is
returned as the identical reference by the list conversion, as long as the
working heap agrees with the original heap on all pre-existing cells. -/
lemma convertOpList_reuse (rs : List Nat) (heap0 : Heap) :
    ∀ heap : Heap, heap0.length ≤ heap.length →
      (∀ j, j < heap0.length → heap.getD j default = heap0.getD j default) →
      (∀ r ∈ rs, r < heap0.length) →
      ∀ i, i < rs.length →
        interfaceOfData ((heap0.getD (rs.getD i 0) default).data) = .numpy →
        (convertOpList heap rs).2.getD i 0 = rs.getD i 0 := by
  induction rs with
  | nil =>
    intro heap _ _ _ i hi
    simp at hi
  | cons r rs ih =>
    intro heap hlen hkeep hwf i hi hnumpy
    cases i with
    | zero =>
      have hr : r < heap0.length := hwf r (List.mem_cons_self r rs)
      have hc : (interfaceOfData (heap.getD r default).data == Interface.numpy) = true := by
        rw [hkeep r hr]
        simpa using hnumpy
      show (convert_op_to_numpy_data heap r).2 = r
      unfold convert_op_to_numpy_data
      rw [if_pos hc]
    | succ i2 =>
      have hlen2 := convert_op_length heap r
      refine ih (convert_op_to_numpy_data heap r).1 (Nat.le_trans hlen hlen2) ?_ ?_ i2 ?_ ?_
      · intro j hj
        rw [convert_op_preserve heap r j (Nat.lt_of_lt_of_le hj hlen)]
        exact hkeep j hj
      · intro x hx
        exact hwf x (List.mem_cons_of_mem r hx)
      · simpa using hi
      · exact hnumpy

/-- A measurement with no observable, or whose observable's data is
already owned by the plain interface, is returned as the identical record
by the list conversion. -/
lemma convertMeasList_reuse (ms : List CMeas) (heap0 : Heap) :
    ∀ heap : Heap, heap0.length ≤ heap.length →
      (∀ j, j < heap0.length → heap.getD j default = heap0.getD j default) →
      (∀ m ∈ ms, ∀ rr, m.obs = some rr → rr < heap0.length) →
      ∀ i, i < ms.length →
        ((ms.getD i default).obs = none ∨
          ∃ rr, (ms.getD i default).obs = some rr ∧
            interfaceOfData ((heap0.getD rr default).data) = .numpy) →
        (convertMeasList heap ms).2.getD i default = ms.getD i default := by
  induction ms with
  | nil =>
    intro heap _ _ _ i hi
    simp at hi
  | cons m ms ih =>
    intro heap hlen hkeep hwf i hi hcond
    cases i with
    | zero =>
      show (convert_measurement_to_numpy_data heap m).2 = m
      unfold convert_measurement_to_numpy_data
      rcases hcond with hnone | ⟨rr, hsome, hnumpy⟩
      · have hmn : m.obs = none := hnone
        rw [hmn]
      · have hmr : m.obs = some rr := hsome
        rw [hmr]
        dsimp only
        have hr : rr < heap0.length := hwf m (List.mem_cons_self m ms) rr hmr
        have hc : (interfaceOfData (heap.getD rr default).data == Interface.numpy) = true := by
          rw [hkeep rr hr]
          simpa using hnumpy
        rw [if_pos hc]
    | succ i2 =>
      have hlen2 := convert_meas_length heap m
      refine ih (convert_measurement_to_numpy_data heap m).1 (Nat.le_trans hlen hlen2) ?_ ?_ i2 ?_ ?_
      · intro j hj
        rw [convert_meas_preserve heap m j (Nat.lt_of_lt_of_le hj hlen)]
        exact hkeep j hj
      · intro x hx
        exact hwf x (List.mem_cons_of_mem m hx)
      · simpa using hi
      · simpa using hcond

/-- C3: `convert_to_numpy_parameters` never mutates the objects of the
input tape: for a tape whose references are valid, every heap cell
referenced by the input tape is unchanged after the transform (the rewrite
constructs fresh instances and writes only those). -/
theorem c3_theorem (heap : Heap) (c : CTape)
    (hwf : ∀ r ∈ c.allRefs, r < heap.length) :
    ∀ r ∈ c.allRefs,
      ((convert_to_numpy_parameters heap c).1).getD r default = heap.getD r default := by
  intro r hr
  have hrl := hwf r hr
  obtain ⟨hp1, hp2⟩ := convertOpList_preserve c.prep r heap hrl
  obtain ⟨ho1, ho2⟩ := convertOpList_preserve c.ops r (convertOpList heap c.prep).1
    (Nat.lt_of_lt_of_le hrl hp2)
  obtain ⟨hm1, _⟩ := convertMeasList_preserve c.measurements r
    (convertOpList (convertOpList heap c.prep).1 c.ops).1
    (Nat.lt_of_lt_of_le hrl (Nat.le_trans hp2 ho2))
  simp only [convert_to_numpy_parameters]
  rw [hm1, ho1, hp1]

/-- An operation object owned by a framework interface. -/
def wTorchOp : OpState := ⟨"RX", [⟨.scalar ⟨1, 2⟩, .torch, true⟩], [0]⟩

/-- An observable object already owned by the plain interface. -/
def wNumpyObs : OpState := ⟨"Hermitian", [⟨.matrix [[⟨1, 1⟩, ⟨0, 1⟩], [⟨0, 1⟩, ⟨1, 1⟩]], .numpy, false⟩], [0]⟩

/-- A concrete heap with one framework-owned and one plain object. -/
def wheap : Heap := [wTorchOp, wNumpyObs]

/-- A concrete tape over `wheap`: one framework-owned gate, one
measurement whose plain-interface observable needs no conversion. -/
def wtape : CTape :=
  { prep := [], ops := [0], measurements := [⟨1, .expectation, some 1⟩], shots := .noShots,
    trainableParams := [0], qfuncOutput := 7 }

/-- C3, witness: both objects referenced by the concrete tape are
unchanged. -/
theorem c3_witness :
    ((convert_to_numpy_parameters wheap wtape).1).getD 0 default = wheap.getD 0 default ∧
    ((convert_to_numpy_parameters wheap wtape).1).getD 1 default = wheap.getD 1 default :=
  ⟨c3_theorem wheap wtape (by decide) 0 (by decide),
    c3_theorem wheap wtape (by decide) 1 (by decide)⟩

/-- C6: the tape returned by `convert_to_numpy_parameters` preserves the
trainable-parameter set verbatim, and every operation and measurement
whose data is already owned by the plain numpy interface (for a
measurement: no observable, or a plain-interface observable) is the
identical instance as in the input. -/
theorem c6_theorem (heap : Heap) (c : CTape)
    (hwf : ∀ r ∈ c.allRefs, r < heap.length) :
    (convert_to_numpy_parameters heap c).2.1.trainableParams = c.trainableParams ∧
    (∀ i, i < c.prep.length →
      interfaceOfData ((heap.getD (c.prep.getD i 0) default).data) = .numpy →
      (convert_to_numpy_parameters heap c).2.1.prep.getD i 0 = c.prep.getD i 0) ∧
    (∀ i, i < c.ops.length →
      interfaceOfData ((heap.getD (c.ops.getD i 0) default).data) = .numpy →
      (convert_to_numpy_parameters heap c).2.1.ops.getD i 0 = c.ops.getD i 0) ∧
    (∀ i, i < c.measurements.length →
      ((c.measurements.getD i default).obs = none ∨
        ∃ rr, (c.measurements.getD i default).obs = some rr ∧
          interfaceOfData ((heap.getD rr default).data) = .numpy) →
      (convert_to_numpy_parameters heap c).2.1.measurements.getD i default =
        c.measurements.getD i default) := by
  have hwfPrep : ∀ r ∈ c.prep, r < heap.length := by
    intro r hr
    exact hwf r (by simp [CTape.allRefs, hr])
  have hwfOps : ∀ r ∈ c.ops, r < heap.length := by
    intro r hr
    exact hwf r (by simp [CTape.allRefs, hr])
  have hwfMeas : ∀ m ∈ c.measurements, ∀ rr, m.obs = some rr → rr < heap.length := by
    intro m hm rr hrr
    refine hwf rr ?_
    simp only [CTape.allRefs, List.mem_append, List.mem_filterMap]
    exact Or.inr ⟨m, hm, hrr⟩
  refine ⟨rfl, ?_, ?_, ?_⟩
  · intro i hi hnumpy
    exact convertOpList_reuse c.prep heap heap (Nat.le_refl _) (fun _ _ => rfl) hwfPrep i hi hnumpy
  · intro i hi hnumpy
    have hlenP := convertOpList_length c.prep heap
    refine convertOpList_reuse c.ops heap _ hlenP ?_ hwfOps i hi hnumpy
    intro j hj
    exact (convertOpList_preserve c.prep j heap hj).1
  · intro i hi hcond
    have hlenP := convertOpList_length c.prep heap
    have hlenO := convertOpList_length c.ops (convertOpList heap c.prep).1
    refine convertMeasList_reuse c.measurements heap _ (Nat.le_trans hlenP hlenO) ?_ hwfMeas i hi hcond
    intro j hj
    rw [(convertOpList_preserve c.ops j _ (Nat.lt_of_lt_of_le hj hlenP)).1,
      (convertOpList_preserve c.prep j heap hj).1]

/-- C6, witness: trainability preservation and reuse of the
plain-interface measurement at the concrete heap and tape. -/
theorem c6_witness :
    (convert_to_numpy_parameters wheap wtape).2.1.trainableParams = wtape.trainableParams ∧
    (convert_to_numpy_parameters wheap wtape).2.1.measurements.getD 0 default =
      wtape.measurements.getD 0 default :=
  ⟨(c6_theorem wheap wtape (by decide)).1,
    (c6_theorem wheap wtape (by decide)).2.2.2 0 (by decide) (Or.inr ⟨1, rfl, rfl⟩)⟩

end Pennylane
